import Mathlib

/-!
Verification of the `goentf/errors` error-chaining library (src/errors.go).

The embedding models Go interface values of type `error` as `Option GoError`
(`none` is the nil interface).  A `GoError` is either

* a chain node `*errorChain` (struct with fields `pc`, `text`, `next`);
  the pointer identity of the allocation is modelled by the `id` field,
  and the opaque `runpoint.PCounter` handle by a `Nat` (zero value `0`); or
* a foreign error of some other dynamic type, identified by a
  `typeId`/`comparable` pair (Go's `reflect.Type` together with its
  comparability) and carrying an opaque value identifier and message text.

Go's interface equality `==` is `goEq`; it returns `none` when the
comparison would panic (both operands of the same non-comparable dynamic
type), `some b` otherwise.  Pointer comparison of two `*errorChain`
values is equality of their allocation ids.
-/

inductive GoError where
  | chain (id : Nat) (pc : Nat) (text : String) (next : Option GoError)
  | foreign (typeId : Nat) (comparable : Bool) (val : Nat) (text : String)

namespace GoError

/-- `(e *errorChain) Error()` returns `e.text`; a foreign error likewise
exposes its own message text. -/
def Error : GoError → String
  | .chain _ _ t _ => t
  | .foreign _ _ _ t => t

end GoError

/-- Whether the dynamic type of the value supports `==`
(`reflect.TypeOf(v).Comparable()`).  `*errorChain` is a pointer type,
hence always comparable; a foreign type carries its own flag. -/
def comparableOf : GoError → Bool
  | .chain _ _ _ _ => true
  | .foreign _ c _ _ => c

/-- Go interface equality `x == y` on two non-nil error values.
Different dynamic types compare unequal without panicking; two chain
nodes compare by pointer identity; two foreign values of the same
dynamic type compare by value when that type is comparable and panic
(`none`) when it is not. -/
def goEq : GoError → GoError → Option Bool
  | .chain i _ _ _, .chain j _ _ _ => some (i == j)
  | .foreign t1 c1 v1 _, .foreign t2 c2 v2 _ =>
    if t1 == t2 && c1 == c2 then
      if c1 then some (v1 == v2) else none
    else some false
  | _, _ => some false

/-- `New(text string, cause ...error) error` (src/errors.go:37-47).
The variadic `cause` is a list of (possibly nil) error values; the
stored `next` is `cause[0]` when exactly one cause was supplied and nil
otherwise.  `id` is the fresh pointer identity of the allocation and
`pc` the captured `runpoint.PC(1)` handle. -/
def New (id : Nat) (pc : Nat) (text : String) (cause : List (Option GoError)) : GoError :=
  let e : Option GoError :=
    if cause.length == 1 then cause.headD none else none
  .chain id pc text e

/-- `File(err error) string` (src/errors.go:50-59), with the lazy
`pc.File()` resolution of the external `runpoint` package abstracted as
an arbitrary function `fileOf` on handles. -/
def File (fileOf : Nat → String) : Option GoError → String
  | none => ""
  | some (.chain _ pc _ _) => fileOf pc
  | some (.foreign _ _ _ _) => ""

/-- `Line(err error) int` (src/errors.go:62-71), with `pc.Line()`
abstracted as `lineOf`. -/
def Line (lineOf : Nat → Nat) : Option GoError → Nat
  | none => 0
  | some (.chain _ pc _ _) => lineOf pc
  | some (.foreign _ _ _ _) => 0

/-- `PC(err error) runpoint.PCounter` (src/errors.go:74-83); the zero
`PCounter` handle is `0`. -/
def PC : Option GoError → Nat
  | none => 0
  | some (.chain _ pc _ _) => pc
  | some (.foreign _ _ _ _) => 0

/-- `Cause(err error) error` (src/errors.go:87-96). -/
def Cause : Option GoError → Option GoError
  | none => none
  | some (.chain _ _ _ next) => next
  | some (.foreign _ _ _ _) => none

/-- The visit sequence of the `ForCauses` loop on a non-nil error:
visit the current error; if it is a chain node with non-nil `next`,
advance to `next` and repeat; otherwise stop. -/
def causeList : GoError → List GoError
  | .chain i p t (some nx) => .chain i p t (some nx) :: causeList nx
  | .chain i p t none => [.chain i p t none]
  | .foreign ty c v t => [.foreign ty c v t]

/-- `ForCauses(err error, fun func(error))` (src/errors.go:99-112),
rendered as the list of errors passed to `fun`, in call order. -/
def ForCauses : Option GoError → List GoError
  | none => []
  | some e => causeList e

/-- The loop of `OneCauseOf` (src/errors.go:122-131) for a non-nil
`err`: `isC` is the precomputed `reflect.TypeOf(target).Comparable()`.
When `isC` is false the `err == target` comparison is short-circuited
away, hence never evaluated.  A `none` result is a runtime panic. -/
def oneCauseLoop (isC : Bool) (t : GoError) : GoError → Option Bool
  | .chain i p tx nx =>
    match (if isC then goEq (.chain i p tx nx) t else some false) with
    | none => none
    | some true => some true
    | some false =>
      match nx with
      | some n => oneCauseLoop isC t n
      | none => some false
  | .foreign ty c v tx =>
    match (if isC then goEq (.foreign ty c v tx) t else some false) with
    | none => none
    | some true => some true
    | some false => some false

/-- `OneCauseOf(err, target error) bool` (src/errors.go:116-132).
A nil `target` short-circuits to `err == target`, which is true exactly
when `err` is nil.  A nil `err` with non-nil target never matches
(`nil == target` is false and nil fails the `*errorChain` assertion),
so the loop returns false on its first iteration. -/
def OneCauseOf (err target : Option GoError) : Option Bool :=
  match target with
  | none => some err.isNone
  | some t =>
    let isC := comparableOf t
    match err with
    | none => some false
    | some e => oneCauseLoop isC t e

/-- The length of the walk performed by the chain loops. -/
def errSize : GoError → Nat
  | .chain _ _ _ (some nx) => errSize nx + 1
  | .chain _ _ _ none => 1
  | .foreign _ _ _ _ => 1

/-- The `ForCauses` loop with an explicit step budget: `none` means the
budget was exhausted before the loop returned. -/
def forCausesFuel : Nat → GoError → Option (List GoError)
  | 0, _ => none
  | n + 1, .chain i p t (some nx) =>
    (forCausesFuel n nx).map (fun l => .chain i p t (some nx) :: l)
  | _ + 1, .chain i p t none => some [.chain i p t none]
  | _ + 1, .foreign ty c v t => some [.foreign ty c v t]

/-- The `OneCauseOf` loop with an explicit step budget: outer `none`
means the budget ran out, `some r` that the loop returned `r` (where an
inner `none` is a panic). -/
def oneCauseFuel : Nat → Bool → GoError → GoError → Option (Option Bool)
  | 0, _, _, _ => none
  | n + 1, isC, t, .chain i p tx nx =>
    match (if isC then goEq (.chain i p tx nx) t else some false) with
    | none => some none
    | some true => some (some true)
    | some false =>
      match nx with
      | some nn => oneCauseFuel n isC t nn
      | none => some (some false)
  | _ + 1, isC, t, .foreign ty c v tx =>
    match (if isC then goEq (.foreign ty c v tx) t else some false) with
    | none => some none
    | some true => some (some true)
    | some false => some (some false)

/-- The worked example of the spec: `e1 = New("a")`, `e2 = New("b", e1)`,
`e3 = New("c", e2)`, with distinct allocation ids. -/
def exE1 : GoError := New 1 101 "a" []

def exE2 : GoError := New 2 102 "b" [some exE1]

def exE3 : GoError := New 3 103 "c" [some exE2]

/-- A second `New("a")` call: identical text, fresh allocation id. -/
def exE1Fresh : GoError := New 4 104 "a" []

/-! ### Induction principle

`GoError` nests through `Option`, so we derive by hand the induction
principle matching the loops' recursion (advance to the non-nil `next`
of a chain node). -/

theorem GoError.chainInd (motive : GoError → Prop)
    (hstep : ∀ i p t nx, motive nx → motive (.chain i p t (some nx)))
    (hterm : ∀ i p t, motive (.chain i p t none))
    (hfor : ∀ ty c v t, motive (.foreign ty c v t)) : ∀ e, motive e := by
  have aux : ∀ n e, errSize e ≤ n → motive e := by
    intro n
    induction n with
    | zero =>
      intro e he
      cases e with
      | chain i p t nx => cases nx <;> simp [errSize] at he
      | foreign ty c v t => simp [errSize] at he
    | succ n ih =>
      intro e he
      cases e with
      | chain i p t nx =>
        cases nx with
        | none => exact hterm i p t
        | some nn =>
          refine hstep i p t nn (ih nn ?_)
          simp [errSize] at he
          omega
      | foreign ty c v t => exact hfor ty c v t
  exact fun e => aux (errSize e) e le_rfl

/-! ### Helper lemmas -/

/-- Comparing any value against a comparable target never panics:
a panic needs both operands to share a non-comparable dynamic type. -/
theorem goEq_isSome_of_comparable (t : GoError) (hc : comparableOf t = true)
    (e : GoError) : (goEq e t).isSome := by
  cases e with
  | chain i p tx nx => cases t <;> simp [goEq]
  | foreign t1 c1 v1 x1 =>
    cases t with
    | chain _ _ _ _ => simp [goEq]
    | foreign t2 c2 v2 x2 =>
      simp only [comparableOf] at hc
      subst hc
      simp only [goEq]
      split
      · next hcond =>
        simp only [Bool.and_eq_true, beq_iff_eq] at hcond
        rw [hcond.2]
        simp
      · simp

/-- With a non-comparable target the comparison is short-circuited away
and the loop can only exhaust the chain and return false. -/
theorem oneCauseLoop_false_eq (t : GoError) :
    ∀ e, oneCauseLoop false t e = some false := by
  refine GoError.chainInd _ ?_ ?_ ?_
  · intro i p tx nx ih
    simp [oneCauseLoop, ih]
  · intro i p tx
    simp [oneCauseLoop]
  · intro ty c v tx
    simp [oneCauseLoop]

/-- The loop never panics when the target's type is comparable. -/
theorem oneCauseLoop_isSome (t : GoError) (hc : comparableOf t = true) :
    ∀ e, (oneCauseLoop true t e).isSome := by
  refine GoError.chainInd _ ?_ ?_ ?_
  · intro i p tx nx ih
    simp only [oneCauseLoop, if_true]
    obtain ⟨b, hb⟩ := Option.isSome_iff_exists.mp
      (goEq_isSome_of_comparable t hc (.chain i p tx (some nx)))
    rw [hb]
    cases b with
    | true => simp
    | false => simpa using ih
  · intro i p tx
    simp only [oneCauseLoop, if_true]
    obtain ⟨b, hb⟩ := Option.isSome_iff_exists.mp
      (goEq_isSome_of_comparable t hc (.chain i p tx none))
    rw [hb]
    cases b <;> simp
  · intro ty c v tx
    simp only [oneCauseLoop, if_true]
    obtain ⟨b, hb⟩ := Option.isSome_iff_exists.mp
      (goEq_isSome_of_comparable t hc (.foreign ty c v tx))
    rw [hb]
    cases b <;> simp

/-- For a comparable target the loop computes exactly "some visited
error compares equal to the target", scanning the visit sequence of the
chain walk front to back. -/
theorem oneCauseLoop_eq_any (t : GoError) (hc : comparableOf t = true) :
    ∀ e, oneCauseLoop true t e =
      some ((causeList e).any fun x => goEq x t == some true) := by
  refine GoError.chainInd _ ?_ ?_ ?_
  · intro i p tx nx ih
    simp only [oneCauseLoop, if_true, causeList, List.any_cons]
    obtain ⟨b, hb⟩ := Option.isSome_iff_exists.mp
      (goEq_isSome_of_comparable t hc (.chain i p tx (some nx)))
    rw [hb]
    cases b with
    | true => simp [hb]
    | false => simp [hb, ih]
  · intro i p tx
    simp only [oneCauseLoop, if_true, causeList, List.any_cons, List.any_nil]
    obtain ⟨b, hb⟩ := Option.isSome_iff_exists.mp
      (goEq_isSome_of_comparable t hc (.chain i p tx none))
    rw [hb]
    cases b <;> simp [hb]
  · intro ty c v tx
    simp only [oneCauseLoop, if_true, causeList, List.any_cons, List.any_nil]
    obtain ⟨b, hb⟩ := Option.isSome_iff_exists.mp
      (goEq_isSome_of_comparable t hc (.foreign ty c v tx))
    rw [hb]
    cases b <;> simp [hb]

/-- A budget of `errSize e` steps suffices for the `ForCauses` loop. -/
theorem forCausesFuel_adequate :
    ∀ e, forCausesFuel (errSize e) e = some (causeList e) := by
  refine GoError.chainInd _ ?_ ?_ ?_
  · intro i p t nx ih
    simp [errSize, forCausesFuel, causeList, ih]
  · intro i p t
    simp [errSize, forCausesFuel, causeList]
  · intro ty c v t
    simp [errSize, forCausesFuel, causeList]

/-- A budget of `errSize e` steps suffices for the `OneCauseOf` loop. -/
theorem oneCauseFuel_adequate :
    ∀ e isC t, oneCauseFuel (errSize e) isC t e = some (oneCauseLoop isC t e) := by
  refine GoError.chainInd _ ?_ ?_ ?_
  · intro i p tx nx ih isC t
    cases hb : (if isC then goEq (.chain i p tx (some nx)) t else some false) with
    | none => simp [errSize, oneCauseFuel, oneCauseLoop, hb]
    | some b => cases b <;> simp [errSize, oneCauseFuel, oneCauseLoop, hb, ih]
  · intro i p tx isC t
    cases hb : (if isC then goEq (.chain i p tx none) t else some false) with
    | none => simp [errSize, oneCauseFuel, oneCauseLoop, hb]
    | some b => cases b <;> simp [errSize, oneCauseFuel, oneCauseLoop, hb]
  · intro ty c v tx isC t
    cases hb : (if isC then goEq (.foreign ty c v tx) t else some false) with
    | none => simp [errSize, oneCauseFuel, oneCauseLoop, hb]
    | some b => cases b <;> simp [errSize, oneCauseFuel, oneCauseLoop, hb]

/-- `OneCauseOf` on two non-nil errors runs the loop with
`isC = reflect.TypeOf(target).Comparable()`. -/
theorem OneCauseOf_some_some (e t : GoError) :
    OneCauseOf (some e) (some t) = oneCauseLoop (comparableOf t) t e := rfl

/-! ### Claims -/

/-- C1: For a non-nil target of comparable dynamic type, `OneCauseOf`
returns true exactly when some error visited by the chain walk of `err`
(`err` first, then each stored cause in order, the same walk as
`ForCauses`) compares equal to the target; in the worked example,
`OneCauseOf(e3, e1)` is true and `OneCauseOf(e3, New("a"))` is false
despite identical text. -/
theorem C1_oneCauseOf_membership :
    (∀ err t, comparableOf t = true →
      OneCauseOf err (some t) =
        some ((ForCauses err).any fun x => goEq x t == some true)) ∧
    OneCauseOf (some exE3) (some exE1) = some true ∧
    OneCauseOf (some exE3) (some exE1Fresh) = some false := by
  refine ⟨?_, rfl, rfl⟩
  intro err t hc
  cases err with
  | none => simp [OneCauseOf, ForCauses]
  | some e =>
    rw [OneCauseOf_some_some, hc, oneCauseLoop_eq_any t hc e]
    rfl

theorem C1_oneCauseOf_membership_witness :
    comparableOf exE1 = true ∧
    OneCauseOf (some exE3) (some exE1) =
      some ((ForCauses (some exE3)).any fun x => goEq x exE1 == some true) :=
  ⟨rfl, C1_oneCauseOf_membership.1 (some exE3) exE1 rfl⟩

/-- C2: `Cause(New(t, c))` returns exactly the stored cause `c`
(identity round-trip), and `Cause(New(t))` is nil. -/
theorem C2_cause_roundtrip :
    (∀ i p t c, Cause (some (New i p t [c])) = c) ∧
    (∀ i p t, Cause (some (New i p t [])) = none) :=
  ⟨fun _ _ _ _ => rfl, fun _ _ _ => rfl⟩

/-- C3: `ForCauses` visits the error itself first, advances through
chain nodes with non-nil causes, visits the final terminal or foreign
error, and visits nothing on nil input; on the worked example the visit
sequence is exactly `e3, e2, e1`. -/
theorem C3_forCauses_walk :
    ForCauses none = [] ∧
    (∀ i p t nx, ForCauses (some (.chain i p t (some nx))) =
      .chain i p t (some nx) :: ForCauses (some nx)) ∧
    (∀ i p t, ForCauses (some (.chain i p t none)) = [.chain i p t none]) ∧
    (∀ ty c v t, ForCauses (some (.foreign ty c v t)) = [.foreign ty c v t]) ∧
    ForCauses (some exE3) = [exE3, exE2, exE1] :=
  ⟨rfl, fun _ _ _ _ => rfl, fun _ _ _ => rfl, fun _ _ _ _ => rfl, rfl⟩

/-- C4: `OneCauseOf` never panics (never reaches the `none` outcome of
the equality model) for any combination of `err` and `target`, and when
the non-nil target's dynamic type is non-comparable the equality checks
are skipped and the result is false. -/
theorem C4_no_panic :
    (∀ err target, OneCauseOf err target ≠ none) ∧
    (∀ err t, comparableOf t = false → OneCauseOf err (some t) = some false) := by
  constructor
  · intro err target
    cases target with
    | none => simp [OneCauseOf]
    | some t =>
      cases err with
      | none => simp [OneCauseOf]
      | some e =>
        rw [OneCauseOf_some_some]
        cases hc : comparableOf t with
        | false => rw [oneCauseLoop_false_eq]; simp
        | true => exact Option.isSome_iff_ne_none.mp (oneCauseLoop_isSome t hc e)
  · intro err t hc
    cases err with
    | none => simp [OneCauseOf]
    | some e => rw [OneCauseOf_some_some, hc, oneCauseLoop_false_eq]

theorem C4_no_panic_witness :
    comparableOf (.foreign 7 false 0 "nc") = false ∧
    OneCauseOf (some exE3) (some (.foreign 7 false 0 "nc")) = some false :=
  ⟨rfl, C4_no_panic.2 (some exE3) (.foreign 7 false 0 "nc") rfl⟩

/-- C5: With a nil target, `OneCauseOf(err, nil)` is `err == nil`: true
exactly when `err` itself is nil; in particular `OneCauseOf(nil, nil)`
is true and `OneCauseOf(e, nil)` is false for every non-nil `e`. -/
theorem C5_nil_target :
    (∀ err, OneCauseOf err none = some err.isNone) ∧
    OneCauseOf none none = some true ∧
    (∀ e, OneCauseOf (some e) none = some false) :=
  ⟨fun _ => rfl, rfl, fun _ => rfl⟩

/-- C6: On nil or foreign (non-`New`-produced) errors every query
returns the zero result: `File` the empty string, `Line` zero, `PC` the
zero handle, `Cause` nil — for every resolution of the opaque
`runpoint` handles. -/
theorem C6_zero_queries :
    (∀ fileOf, File fileOf none = "" ∧
      ∀ ty c v t, File fileOf (some (.foreign ty c v t)) = "") ∧
    (∀ lineOf, Line lineOf none = 0 ∧
      ∀ ty c v t, Line lineOf (some (.foreign ty c v t)) = 0) ∧
    (PC none = 0 ∧ ∀ ty c v t, PC (some (.foreign ty c v t)) = 0) ∧
    (Cause none = none ∧ ∀ ty c v t, Cause (some (.foreign ty c v t)) = none) :=
  ⟨fun _ => ⟨rfl, fun _ _ _ _ => rfl⟩, fun _ => ⟨rfl, fun _ _ _ _ => rfl⟩,
   ⟨rfl, fun _ _ _ _ => rfl⟩, ⟨rfl, fun _ _ _ _ => rfl⟩⟩

/-- C7: Two constructor calls yield distinct error identities even with
identical text: under Go's `==` (pointer comparison of the two fresh
allocations) the two values compare unequal. -/
theorem C7_distinct_identity :
    ∀ i1 i2 p1 p2 t cs1 cs2, i1 ≠ i2 →
      goEq (New i1 p1 t cs1) (New i2 p2 t cs2) = some false := by
  intro i1 i2 p1 p2 t cs1 cs2 h
  simp [New, goEq]
  exact h

theorem C7_distinct_identity_witness :
    (1 : Nat) ≠ 2 ∧ goEq (New 1 0 "x" []) (New 2 0 "x" []) = some false :=
  ⟨by decide, C7_distinct_identity 1 2 0 0 "x" [] [] (by decide)⟩

/-- C8: On the acyclic chains of the model (acyclicity holds by
construction: `GoError` values are finite trees), both loops terminate:
a budget of `errSize e` steps lets the fueled renderings of the
`ForCauses` and `OneCauseOf` loops return without exhausting fuel, with
the same results as the total functions. -/
theorem C8_termination :
    (∀ e, forCausesFuel (errSize e) e = some (causeList e)) ∧
    (∀ e isC t, oneCauseFuel (errSize e) isC t e = some (oneCauseLoop isC t e)) :=
  ⟨forCausesFuel_adequate, oneCauseFuel_adequate⟩

/-- C9: The error built by `New` exposes exactly its text, stored
verbatim, as its displayable message via the `Error()` method —
whatever causes were supplied. -/
theorem C9_text_verbatim : ∀ i p t cs, (New i p t cs).Error = t :=
  fun _ _ _ _ => rfl

/-- C10: `New` called with more than one cause argument silently
discards all of them and stores a nil cause; only a call with exactly
one cause argument stores that cause. -/
theorem C10_variadic_discarded :
    (∀ i p t c1 c2 rest, Cause (some (New i p t (c1 :: c2 :: rest))) = none) ∧
    (∀ i p t c, Cause (some (New i p t [c])) = c) :=
  ⟨fun _ _ _ _ _ _ => rfl, fun _ _ _ _ => rfl⟩
